import Mathlib

/-!
Verification of the Lotes_Table cycle-analysis engine.

Shallow embedding of the core algorithms:
* `CycleAnalyzer.detect_cycles` (src/core/cycle_analyzer.py) — gap-based
  cycle segmentation of a sorted timestamp sequence;
* `CycleAnalyzer._compare_time_series` — row-by-row comparison of two
  parsed timestamp sequences;
* `TimeStringRecoveryService` (src/services/timestring_recovery_service.py)
  — timestamp quality analysis, strategy selection and recovery;
* `AnalysisService.analyze_tables` / `CycleAnalyzer.analyze_table`
  (src/services/analysis_service.py) — per-table and batch orchestration.

Timestamps are modelled as rational numbers of seconds since an arbitrary
epoch (pandas timestamps have sub-second resolution, so `ℚ` rather than a
whole-second type).  A cell of a raw timestamp column is modelled
post-classification as `Option ℚ`: `some t` for a value the engine parses
to the timestamp `t`, `none` for a null-like or unparseable value (pandas
`NaT` after `to_datetime(..., errors='coerce')`).  The recovery service
uses two different parsers — the lenient `_parse_timestamp` (plain parse,
strptime patterns, overflow fixes) for quality classification and the
plain `pd.to_datetime(..., errors='coerce')` for its working
`valid_mask` — so where that distinction matters the column is modelled
as `List RawCell`, which records both views of each cell; the `Option ℚ`
column is the fragment on which the two parsers agree.  Python exceptions
are modelled with `Except String`.
-/

namespace LotesTable

/-- The `Cycle` dataclass of src/core/models.py. -/
structure Cycle where
  cycle_id : ℕ
  start_time : ℚ
  end_time : ℚ
  sample_count : ℕ
  duration_minutes : ℚ
deriving DecidableEq, Repr

/-- The pairs of consecutive elements of a list. -/
def adjacentPairs : List ℚ → List (ℚ × ℚ)
  | a :: b :: rest => (a, b) :: adjacentPairs (b :: rest)
  | _ => []

/-- The pairs (end_time of cycle i, start_time of cycle i+1) for the
consecutive cycles of a cycle list. -/
def cycleBoundaries : List Cycle → List (ℚ × ℚ)
  | c :: c' :: rest => (c.end_time, c'.start_time) :: cycleBoundaries (c' :: rest)
  | _ => []

/-- The scanning loop of `CycleAnalyzer.detect_cycles` (lines 43-77 of
src/core/cycle_analyzer.py).  State: `cycle_start` and `previous_time`
of the open cycle, the number `sample_count` of samples accumulated in it
(the Python loop increments `sample_count` before the gap test and closes
a cycle with `sample_count - 1`, which is the pre-increment value used
here), the id `current_cycle_id` of the open cycle, and the remaining
sorted timestamps.  `time_threshold` is in seconds;
`duration_minutes = (previous_time - cycle_start).total_seconds() / 60`. -/
def detect_cycles_loop (time_threshold : ℚ) :
    ℚ → ℚ → ℕ → ℕ → List ℚ → List Cycle
  | cycle_start, previous_time, sample_count, current_cycle_id, [] =>
      [⟨current_cycle_id, cycle_start, previous_time, sample_count,
        (previous_time - cycle_start) / 60⟩]
  | cycle_start, previous_time, sample_count, current_cycle_id,
      current_time :: rest =>
      if time_threshold < current_time - previous_time then
        ⟨current_cycle_id, cycle_start, previous_time, sample_count,
          (previous_time - cycle_start) / 60⟩ ::
          detect_cycles_loop time_threshold current_time current_time 1
            (current_cycle_id + 1) rest
      else
        detect_cycles_loop time_threshold cycle_start current_time
          (sample_count + 1) current_cycle_id rest

/-- The cleaned and sorted timestamp sequence: `parse(...).dropna()`
followed by `sort_values()` (lines 29-35 of src/core/cycle_analyzer.py).
Parsing is pre-applied in the `Option ℚ` cells; `dropna` is `filterMap id`
and pandas' ascending value sort is any `≤`-sort of the multiset. -/
def sortedValid (raw : List (Option ℚ)) : List ℚ :=
  List.insertionSort (· ≤ ·) (raw.filterMap id)

/-- `CycleAnalyzer.detect_cycles` (src/core/cycle_analyzer.py, lines
24-79): drop invalid entries, sort, and scan for gaps strictly greater
than the threshold. -/
def detect_cycles (time_threshold : ℚ) (raw : List (Option ℚ)) : List Cycle :=
  match sortedValid raw with
  | [] => []
  | t :: rest => detect_cycles_loop time_threshold t t 1 1 rest

/-- Number of row-level timestamp mismatches found by
`CycleAnalyzer._compare_time_series` (lines 210-237 of
src/core/cycle_analyzer.py): indices `i` below the shorter length where
`ref_series.iloc[i] != test_series.iloc[i]`, compared by exact datetime
equality. -/
def mismatch_count (ref_series test_series : List ℚ) : ℕ :=
  ((ref_series.zip test_series).filter (fun p => decide (p.1 ≠ p.2))).length

/-- The `matches` flag of `CycleAnalyzer._compare_time_series`: starts
true and is set false on a length difference (line 199) or on any row
mismatch (`time_diffs` non-empty, line 251).  Both series hold parsed
timestamps of the same datetime dtype, so the dtype test of line 264
never fires in this model. -/
def compare_time_series_matches (ref_series test_series : List ℚ) : Bool :=
  (ref_series.length == test_series.length) &&
    (mismatch_count ref_series test_series == 0)

/-- The cell of a parsed timestamp column at position `i`: `some t` when
`i` is in range and holds the valid timestamp `t`, `none` otherwise. -/
def cellAt (col : List (Option ℚ)) (i : ℕ) : Option ℚ :=
  (col.get? i).bind id

/-- The timestamp stored at a valid position (`pd.to_datetime(
df[time_column].iloc[i])` in `_estimate_timestamp`); defaults to `0` at
positions the service never reads (it only reads valid indices). -/
def timeAt (col : List (Option ℚ)) (i : ℕ) : ℚ :=
  (cellAt col i).getD 0

/-- `np.where(valid_mask)[0]` of line 222 of
src/services/timestring_recovery_service.py: the ascending list of
positions holding a valid timestamp. -/
def validIndicesOf (col : List (Option ℚ)) : List ℕ :=
  (List.range col.length).filter (fun i => (cellAt col i).isSome)

/-- Rendering a timestamp through `strftime('%d/%m/%Y %H:%M:%S')` (or the
`'%Y-%m-%d %H:%M:%S'` normalization) and re-parsing: the sub-second
component is discarded, i.e. the value is floored to a whole second. -/
def truncSec (q : ℚ) : ℚ := (⌊q⌋ : ℚ)

/-- The recovery strategy strings `"auto" / "interpolate" / "reconstruct"
/ "pattern"` of `TimeStringRecoveryService.recover_timestrings`. -/
inductive Strategy where
  | auto | interpolate | reconstruct | pattern
deriving DecidableEq, Repr

/-- The fields of the quality report of
`TimeStringRecoveryService.analyze_timestring_quality` that drive
recovery.  A cell is valid exactly when it parses to a timestamp;
`invalid_or_null` merges the report's `invalid_count + null_count`
(the two are only ever consumed as their sum). -/
structure QualityAnalysis where
  total_rows : ℕ
  valid_count : ℕ
  invalid_or_null : ℕ
  data_loss_percentage : ℚ
deriving DecidableEq, Repr

/-- `data_loss_percentage = (invalid_count + null_count) / total_rows * 100`
(lines 64-67 of src/services/timestring_recovery_service.py). -/
def data_loss (col : List (Option ℚ)) : ℚ :=
  ((col.length - (col.filterMap id).length : ℕ) : ℚ) / (col.length : ℚ) * 100

/-- `TimeStringRecoveryService.analyze_timestring_quality` (lines 19-72):
counts valid and invalid/null cells and computes
`data_loss_percentage`.  On a zero-row column the Python division
`... / total_rows` raises `ZeroDivisionError`, modelled as `.error`.
This `Option ℚ` version is the analysis on columns whose cells are
classified identically by `_parse_timestamp` and by the plain
`pd.to_datetime` (no cell is valid only via the strptime/overflow
fallbacks); `data_loss_raw` below gives the analyzer's classification on
general raw columns. -/
def analyze_timestring_quality (col : List (Option ℚ)) :
    Except String QualityAnalysis :=
  if col.length = 0 then .error "ZeroDivisionError"
  else
    .ok ⟨col.length, (col.filterMap id).length,
      col.length - (col.filterMap id).length, data_loss col⟩

/-- Automatic strategy selection (lines 189-196 of
src/services/timestring_recovery_service.py): `<5% → interpolate`,
`else <20% → reconstruct`, `else → pattern`. -/
def chooseAutoStrategy (loss : ℚ) : Strategy :=
  if loss < 5 then .interpolate
  else if loss < 20 then .reconstruct
  else .pattern

/-- `TimeStringRecoveryService._estimate_timestamp` (lines 264-324),
returning `(confidence, estimated_time)`.  `valid_indices` is the
ascending list of valid positions, `col` the parsed column (the Python
code re-parses `df[time_column]` at valid positions, which yields exactly
the stored values), `now` models `datetime.now()` in the anchor-free
fallback.  Python negative indexing `prev_valid_idx[-i]` is read off the
reversed list.  `timedelta(minutes=1)` is 60 seconds. -/
def estimate_timestamp (index : ℕ) (valid_indices : List ℕ)
    (col : List (Option ℚ)) (strategy : Strategy) (now : ℚ) : ℚ × ℚ :=
  let prev_valid_idx := valid_indices.filter (fun j => decide (j < index))
  let next_valid_idx := valid_indices.filter (fun j => decide (index < j))
  match prev_valid_idx.getLast?, next_valid_idx.head? with
  | some prev_idx, some next_idx =>
      let prev_time := timeAt col prev_idx
      let next_time := timeAt col next_idx
      let position : ℚ :=
        ((index : ℚ) - (prev_idx : ℚ)) / ((next_idx : ℚ) - (prev_idx : ℚ))
      (9/10 - 2/10 * (((next_idx : ℚ) - (prev_idx : ℚ) - 1) / (col.length : ℚ)),
        prev_time + (next_time - prev_time) * position)
  | some prev_idx, none =>
      let prev_time := timeAt col prev_idx
      let rv := prev_valid_idx.reverse
      if strategy = .pattern ∧ 1 < prev_valid_idx.length then
        let recent_intervals : List ℚ :=
          (List.range (min 4 prev_valid_idx.length - 1)).map (fun j =>
            let idx2 := rv.getD j 0
            let idx1 := rv.getD (j + 1) 0
            (timeAt col idx2 - timeAt col idx1) / ((idx2 : ℚ) - (idx1 : ℚ)))
        if recent_intervals ≠ [] then
          let avg_interval := recent_intervals.sum / (recent_intervals.length : ℚ)
          (7/10, prev_time + avg_interval * ((index : ℚ) - (prev_idx : ℚ)))
        else
          (6/10, prev_time + 60 * ((index : ℚ) - (prev_idx : ℚ)))
      else
        (6/10, prev_time + 60 * ((index : ℚ) - (prev_idx : ℚ)))
  | none, some next_idx =>
      (6/10, timeAt col next_idx - 60 * ((next_idx : ℚ) - (index : ℚ)))
  | none, none => (3/10, now)

/-- Model of the library call `Series.interpolate(method='time')` of line
213 on the series this service actually builds: a datetime64-valued
series over the default integer index.  On such a series pandas performs
no filling (datetime64 blocks are not interpolated by pandas 1.x, which
returns the values unchanged; later versions reject the call outright),
so the call is the identity: missing values stay missing. -/
def interpolateSeries (col : List (Option ℚ)) : List (Option ℚ) :=
  col

/-- Outcome of `TimeStringRecoveryService.recover_timestrings`:
`.failure` is the `{"success": False, "message": ...}` dictionary,
`.success` carries the repaired column, the `strategy_used` and
`total_recovered` fields of the recovery report, and `.exception` models
a Python exception escaping the call. -/
inductive RecoveryResult where
  | exception (message : String)
  | failure (message : String)
  | success (recovered : List (Option ℚ)) (strategy_used : Strategy)
      (total_recovered : ℕ)
deriving DecidableEq, Repr

/-- The `strategy_used` field of a successful recovery's report. -/
def strategyUsedOf : RecoveryResult → Option Strategy
  | .success _ s _ => some s
  | _ => none

/-- `TimeStringRecoveryService.recover_timestrings` (lines 174-262):
analyze quality; fail when no valid timestamp exists; resolve `auto` by
`data_loss_percentage` (`<5 → interpolate`, `<20 → reconstruct`, else
`pattern`); run the strategy branch (positions are repaired in the
reconstruct/pattern loop only when `confidence >= confidence_threshold`,
and `total_recovered` counts exactly the repaired positions); finally
re-render the whole column to second precision and re-parse it
(lines 247-255), which floors every remaining value to a whole second.
This `Option ℚ` version models the routine on columns where the
analyzer's `_parse_timestamp` classification coincides with the plain
`pd.to_datetime` mask of line 208, so one cell value describes both
views; `recover_timestrings_raw` below is the general model
distinguishing the two parsers. -/
def recover_timestrings (col : List (Option ℚ)) (strategy : Strategy)
    (confidence_threshold : ℚ) (now : ℚ) : RecoveryResult :=
  match analyze_timestring_quality col with
  | .error m => .exception m
  | .ok analysis =>
      if analysis.valid_count = 0 then
        .failure "No valid timestamps found for reference"
      else
        let strat := if strategy = .auto then
            chooseAutoStrategy analysis.data_loss_percentage
          else strategy
        let afterBranch : List (Option ℚ) × ℕ :=
          match strat with
          | .interpolate =>
              let filled := interpolateSeries col
              (filled.map (Option.map truncSec),
                ((List.range col.length).filter (fun i =>
                  (cellAt filled i).isSome && !(cellAt col i).isSome)).length)
          | .reconstruct | .pattern =>
              let vi := validIndicesOf col
              ((List.range col.length).map (fun i =>
                  match cellAt col i with
                  | some t => some t
                  | none =>
                      let est := estimate_timestamp i vi col strat now
                      if confidence_threshold ≤ est.1 then some (truncSec est.2)
                      else none),
                ((List.range col.length).filter (fun i =>
                  !(cellAt col i).isSome &&
                    decide (confidence_threshold ≤
                      (estimate_timestamp i vi col strat now).1))).length)
          | .auto => (col, 0)
        .success (afterBranch.1.map (Option.map truncSec)) strat afterBranch.2

/-- A raw `TimeString` cell as the two parsers of the recovery service
see it.  `plain t` parses to `t` under the plain
`pd.to_datetime(..., dayfirst=True, errors='coerce')` — the parser of the
`valid_mask` of line 208, of the value reads inside `_estimate_timestamp`
and of the final normalization re-parse (and therefore also under
`_parse_timestamp`, which tries the plain parse first).  `fixable` fails
the plain parse but is still classified valid by `_parse_timestamp`'s
fallbacks (the five strptime patterns and the time/date-overflow fixes,
e.g. `'15/01/2024 25:30:00'`); its analyzer-side value is never used by
recovery, only counted.  `invalid` is null-like or unparseable by both
parsers. -/
inductive RawCell where
  | plain (t : ℚ)
  | fixable
  | invalid
deriving DecidableEq, Repr

/-- The plain `pd.to_datetime(..., errors='coerce')` view of a raw cell
(line 208): `fixable` and `invalid` cells are both `NaT` here. -/
def plainParse : RawCell → Option ℚ
  | .plain t => some t
  | .fixable => none
  | .invalid => none

/-- Whether `_parse_timestamp` (plain parse, then strptime patterns, then
overflow fixes) classifies the cell as valid — the validity notion of
`analyze_timestring_quality`. -/
def analyzerValid : RawCell → Bool
  | .plain _ => true
  | .fixable => true
  | .invalid => false

/-- `data_loss_percentage` over raw cells, with validity classified by
`_parse_timestamp` as in `analyze_timestring_quality`. -/
def data_loss_raw (col : List RawCell) : ℚ :=
  ((col.length - (col.filter analyzerValid).length : ℕ) : ℚ) /
    (col.length : ℚ) * 100

/-- `TimeStringRecoveryService.recover_timestrings` over raw cells,
distinguishing the routine's two parsers: the failure guard
(`valid_count == 0`) and the automatic strategy selection use the
analyzer's lenient classification (`analyze_timestring_quality` /
`_parse_timestamp`), while the `valid_mask` of line 208, the strategy
branches and the final normalization re-parse operate on the plain
`pd.to_datetime` view `col.map plainParse`, under which `fixable` cells
are missing.  A `fixable` cell is therefore re-estimated (when its
confidence reaches the threshold) or comes back `NaT` after the
normalization, even on a column the analyzer reports as 0% data loss. -/
def recover_timestrings_raw (col : List RawCell) (strategy : Strategy)
    (confidence_threshold now : ℚ) : RecoveryResult :=
  if col.length = 0 then .exception "ZeroDivisionError"
  else if (col.filter analyzerValid).length = 0 then
    .failure "No valid timestamps found for reference"
  else
    let strat := if strategy = .auto then chooseAutoStrategy (data_loss_raw col)
      else strategy
    let plainCol := col.map plainParse
    let afterBranch : List (Option ℚ) × ℕ :=
      match strat with
      | .interpolate =>
          let filled := interpolateSeries plainCol
          (filled.map (Option.map truncSec),
            ((List.range plainCol.length).filter (fun i =>
              (cellAt filled i).isSome && !(cellAt plainCol i).isSome)).length)
      | .reconstruct | .pattern =>
          let vi := validIndicesOf plainCol
          ((List.range plainCol.length).map (fun i =>
              match cellAt plainCol i with
              | some t => some t
              | none =>
                  let est := estimate_timestamp i vi plainCol strat now
                  if confidence_threshold ≤ est.1 then some (truncSec est.2)
                  else none),
            ((List.range plainCol.length).filter (fun i =>
              !(cellAt plainCol i).isSome &&
                decide (confidence_threshold ≤
                  (estimate_timestamp i vi plainCol strat now).1))).length)
      | .auto => (plainCol, 0)
    .success (afterBranch.1.map (Option.map truncSec)) strat afterBranch.2

/-- A source table as the analysis pipeline sees it: whether the required
time column is present, and its parsed cells when it is. -/
structure InputTable where
  has_time_column : Bool
  col : List (Option ℚ)
deriving DecidableEq, Repr

/-- The recovery phase of `AnalysisService.analyze_tables` for one table
(lines 30-69 of src/services/analysis_service.py): when the time column
is present, analyze its quality (a zero-row table makes the quality
analysis raise, which escapes the phase uncaught); when
`data_loss_percentage > 0`, call recovery with the default confidence
threshold 0.7 and use the recovered column on success, falling back to
the original column when recovery reports failure.  Tables without the
column, or with no data loss, pass through unchanged. -/
def recoveryPhase (strategy : Strategy) (now : ℚ) (t : InputTable) :
    Except String (List (Option ℚ)) :=
  if t.has_time_column then
    match analyze_timestring_quality t.col with
    | .error m => .error m
    | .ok analysis =>
        if 0 < analysis.data_loss_percentage then
          match recover_timestrings t.col strategy (7/10) now with
          | .success rec _ _ => .ok rec
          | .failure _ => .ok t.col
          | .exception m => .error m
        else .ok t.col
  else .ok t.col

/-- The `TableResult` dataclass of src/core/models.py, restricted to the
fields the analyzer fills (`error_message` defaults to `""`, meaning
unset). -/
structure TableResult where
  cycles : List Cycle
  total_cycles : ℕ
  error_message : String
deriving DecidableEq, Repr

/-- `CycleAnalyzer.analyze_table` (lines 277-308 of
src/core/cycle_analyzer.py): missing column and zero-row table become
error results with empty cycles; otherwise the detected cycles are
returned with no error.  The Python `try/except` wrapper never fires in
this model because every step is total. -/
def analyze_table (time_threshold : ℚ) (t : InputTable) : TableResult :=
  if ¬ t.has_time_column then
    ⟨[], 0, "Column 'TimeString' not found"⟩
  else if t.col.length = 0 then
    ⟨[], 0, "Table is empty"⟩
  else
    let cycles := detect_cycles time_threshold t.col
    ⟨cycles, cycles.length, ""⟩

/-- `AnalysisService.analyze_tables` (src/services/analysis_service.py):
phase 1 runs the recovery phase over every table before any per-table
analysis, so an exception there aborts the whole batch; the later
millisecond-cleanup phase is the identity here (recovered columns are
already second-truncated, raw string columns are skipped by its dtype
test); phase 3 analyzes each table, catching per-table exceptions. -/
def analyze_tables (time_threshold : ℚ) (strategy : Strategy) (now : ℚ)
    (tables : List InputTable) : Except String (List TableResult) := do
  let tables' ← tables.mapM (fun t => do
    let c ← recoveryPhase strategy now t
    pure { t with col := c })
  pure (tables'.map (analyze_table time_threshold))

/-! ## Lemmas about the segmentation loop -/

theorem detect_cycles_loop_cons (θ cs prev : ℚ) (cnt cid : ℕ) (l : List ℚ) :
    ∃ c l', detect_cycles_loop θ cs prev cnt cid l = c :: l' ∧
      c.start_time = cs ∧ c.cycle_id = cid := by
  induction l generalizing prev cnt with
  | nil => exact ⟨_, [], rfl, rfl, rfl⟩
  | cons t rest ih =>
      by_cases h : θ < t - prev
      · refine ⟨⟨cid, cs, prev, cnt, (prev - cs) / 60⟩,
          detect_cycles_loop θ t t 1 (cid + 1) rest, ?_, rfl, rfl⟩
        simp [detect_cycles_loop, h]
      · obtain ⟨c, l', hc, hstart, hid⟩ := ih t (cnt + 1)
        exact ⟨c, l', by simp [detect_cycles_loop, h, hc], hstart, hid⟩

theorem cycleBoundaries_loop (θ : ℚ) (l : List ℚ) :
    ∀ (cs prev : ℚ) (cnt cid : ℕ),
    cycleBoundaries (detect_cycles_loop θ cs prev cnt cid l) =
      (adjacentPairs (prev :: l)).filter (fun p => decide (θ < p.2 - p.1)) := by
  induction l with
  | nil => intro cs prev cnt cid; simp [detect_cycles_loop, adjacentPairs, cycleBoundaries]
  | cons t rest ih =>
      intro cs prev cnt cid
      by_cases h : θ < t - prev
      · obtain ⟨c, l', hc, hstart, _⟩ := detect_cycles_loop_cons θ t t 1 (cid + 1) rest
        have ihr := ih t t 1 (cid + 1)
        simp only [detect_cycles_loop, if_pos h, hc, cycleBoundaries, hstart,
          adjacentPairs, List.filter_cons]
        rw [← hc, ihr]
        simp [h]
      · have ihr := ih cs t (cnt + 1) cid
        simp only [detect_cycles_loop, if_neg h, ihr, adjacentPairs, List.filter_cons]
        simp [h]

theorem sum_sample_count_loop (θ : ℚ) (l : List ℚ) :
    ∀ (cs prev : ℚ) (cnt cid : ℕ),
    ((detect_cycles_loop θ cs prev cnt cid l).map Cycle.sample_count).sum =
      cnt + l.length := by
  induction l with
  | nil => intro cs prev cnt cid; simp [detect_cycles_loop]
  | cons t rest ih =>
      intro cs prev cnt cid
      by_cases h : θ < t - prev
      · simp only [detect_cycles_loop, if_pos h, List.map_cons, List.sum_cons, ih,
          List.length_cons]
        omega
      · simp only [detect_cycles_loop, if_neg h, ih, List.length_cons]
        omega

theorem map_cycle_id_loop (θ : ℚ) (l : List ℚ) :
    ∀ (cs prev : ℚ) (cnt cid : ℕ),
    (detect_cycles_loop θ cs prev cnt cid l).map Cycle.cycle_id =
      List.range' cid (detect_cycles_loop θ cs prev cnt cid l).length := by
  induction l with
  | nil => intro cs prev cnt cid; simp [detect_cycles_loop, List.range']
  | cons t rest ih =>
      intro cs prev cnt cid
      by_cases h : θ < t - prev
      · simp only [detect_cycles_loop, if_pos h, List.map_cons, List.length_cons, ih,
          List.range'_succ]
      · simp only [detect_cycles_loop, if_neg h, ih]

theorem start_le_end_loop (θ : ℚ) (l : List ℚ) :
    ∀ (cs prev : ℚ) (cnt cid : ℕ), cs ≤ prev → List.Chain (· ≤ ·) prev l →
    ∀ c ∈ detect_cycles_loop θ cs prev cnt cid l, c.start_time ≤ c.end_time := by
  induction l with
  | nil =>
      intro cs prev cnt cid h1 _ c hc
      simp [detect_cycles_loop] at hc
      simp [hc, h1]
  | cons t rest ih =>
      intro cs prev cnt cid h1 h2 c hc
      rcases h2 with _ | ⟨hpt, hrest⟩
      by_cases h : θ < t - prev
      · simp only [detect_cycles_loop, if_pos h, List.mem_cons] at hc
        rcases hc with hc | hc
        · simp [hc, h1]
        · exact ih t t 1 (cid + 1) le_rfl hrest c hc
      · simp only [detect_cycles_loop, if_neg h] at hc
        exact ih cs t (cnt + 1) cid (h1.trans hpt) hrest c hc

theorem chain'_of_cycleBoundaries {P : ℚ → ℚ → Prop} :
    ∀ (cs : List Cycle), (∀ p ∈ cycleBoundaries cs, P p.1 p.2) →
      List.Chain' (fun a b => P a.end_time b.start_time) cs
  | [], _ => List.chain'_nil
  | [_], _ => by simp
  | c :: c' :: rest, h => by
      rw [List.chain'_cons]
      refine ⟨h (c.end_time, c'.start_time) (by simp [cycleBoundaries]), ?_⟩
      exact chain'_of_cycleBoundaries (c' :: rest)
        (fun p hp => h p (by simp [cycleBoundaries] at hp ⊢; exact Or.inr hp))

theorem detect_cycles_eq (θ : ℚ) (raw : List (Option ℚ)) (t : ℚ) (rest : List ℚ)
    (h : sortedValid raw = t :: rest) :
    detect_cycles θ raw = detect_cycles_loop θ t t 1 1 rest := by
  unfold detect_cycles
  rw [h]

theorem sortedValid_perm (raw : List (Option ℚ)) :
    (sortedValid raw).Perm (raw.filterMap id) :=
  List.perm_insertionSort _ _

theorem boundaries_detect_cycles (θ : ℚ) (raw : List (Option ℚ)) :
    cycleBoundaries (detect_cycles θ raw) =
      (adjacentPairs (sortedValid raw)).filter
        (fun p => decide (θ < p.2 - p.1)) := by
  rcases hs : sortedValid raw with _ | ⟨t, rest⟩
  · simp [detect_cycles, hs, cycleBoundaries, adjacentPairs]
  · rw [detect_cycles_eq θ raw t rest hs, cycleBoundaries_loop]

/-! ## Claims C1-C3: cycle segmentation -/

/-- Claim C1: segmentation starts a new cycle at a consecutive sorted pair
exactly when the time difference is strictly greater than the threshold
(the cycle boundaries are exactly the adjacent sorted pairs with
`diff > threshold`); in particular if every gap is at most the threshold
(e.g. a gap exactly equal to it) the result is one single cycle. -/
theorem claim_C1 (θ : ℚ) (raw : List (Option ℚ)) :
    cycleBoundaries (detect_cycles θ raw) =
      (adjacentPairs (sortedValid raw)).filter (fun p => decide (θ < p.2 - p.1)) ∧
    (sortedValid raw ≠ [] →
      (∀ p ∈ adjacentPairs (sortedValid raw), p.2 - p.1 ≤ θ) →
      (detect_cycles θ raw).length = 1) := by
  rcases hs : sortedValid raw with _ | ⟨t, rest⟩
  · refine ⟨hs ▸ boundaries_detect_cycles θ raw, ?_⟩
    intro h
    exact absurd rfl h
  · have hd := detect_cycles_eq θ raw t rest hs
    have hb : cycleBoundaries (detect_cycles θ raw) =
        (adjacentPairs (t :: rest)).filter (fun p => decide (θ < p.2 - p.1)) := by
      rw [hd, cycleBoundaries_loop]
    refine ⟨hs ▸ boundaries_detect_cycles θ raw, ?_⟩
    intro _ hall
    have hnil : cycleBoundaries (detect_cycles θ raw) = [] := by
      rw [hb, List.filter_eq_nil_iff]
      intro p hp
      simpa using not_lt.mpr (hall p hp)
    obtain ⟨c, l', hc, _, _⟩ := detect_cycles_loop_cons θ t t 1 1 rest
    rw [hd, hc]
    rw [hd, hc] at hnil
    cases l' with
    | nil => rfl
    | cons c' l'' => simp [cycleBoundaries] at hnil

/-- Witness for C1 at threshold 600 s (10 min) and samples 600 s apart:
the gap equals the threshold, so there is no boundary and exactly one
cycle. -/
theorem claim_C1_witness :
    cycleBoundaries (detect_cycles 600 [some 0, some 600]) = [] ∧
    (detect_cycles 600 [some 0, some 600]).length = 1 :=
  ⟨(claim_C1 600 [some 0, some 600]).1.trans
      (by norm_num [sortedValid, List.insertionSort, List.orderedInsert,
        adjacentPairs]),
    (claim_C1 600 [some 0, some 600]).2 (by decide)
      (by norm_num [sortedValid, List.insertionSort, List.orderedInsert,
        adjacentPairs])⟩

/-- Claim C2: for a non-empty valid timestamp sequence, the sample counts
of the detected cycles sum to the number of valid input timestamps. -/
theorem claim_C2 (θ : ℚ) (raw : List (Option ℚ)) (h : raw.filterMap id ≠ []) :
    ((detect_cycles θ raw).map Cycle.sample_count).sum =
      (raw.filterMap id).length := by
  have hlen : (sortedValid raw).length = (raw.filterMap id).length :=
    (sortedValid_perm raw).length_eq
  rcases hs : sortedValid raw with _ | ⟨t, rest⟩
  · rw [hs] at hlen
    exact absurd (List.length_eq_zero.mp hlen.symm) h
  · rw [detect_cycles_eq θ raw t rest hs, sum_sample_count_loop]
    rw [hs] at hlen
    simp at hlen
    omega

/-- Witness for C2: five raw cells, four of them valid, segmented with a
10-minute threshold: the cycle sample counts sum to 4. -/
theorem claim_C2_witness :
    ((detect_cycles 600 [some 0, some 300, none, some 1800, some 2100]).map
      Cycle.sample_count).sum = 4 :=
  (claim_C2 600 [some 0, some 300, none, some 1800, some 2100]
    (by decide)).trans (by decide)

/-- Claim C3: for a nonnegative gap threshold and a non-empty valid input,
the produced cycle ids are exactly `1..N` in order, every cycle has
`start_time ≤ end_time`, and the end time of each cycle is strictly below
the start time of the next. -/
theorem claim_C3 (θ : ℚ) (raw : List (Option ℚ)) (hθ : 0 ≤ θ)
    (h : raw.filterMap id ≠ []) :
    (detect_cycles θ raw).map Cycle.cycle_id =
      List.range' 1 (detect_cycles θ raw).length ∧
    (∀ c ∈ detect_cycles θ raw, c.start_time ≤ c.end_time) ∧
    List.Chain' (fun a b => a.end_time < b.start_time) (detect_cycles θ raw) := by
  have hlen : (sortedValid raw).length = (raw.filterMap id).length :=
    (sortedValid_perm raw).length_eq
  have hsorted : List.Sorted (· ≤ ·) (sortedValid raw) :=
    List.sorted_insertionSort _ _
  rcases hs : sortedValid raw with _ | ⟨t, rest⟩
  · rw [hs] at hlen
    exact absurd (List.length_eq_zero.mp hlen.symm) h
  · have hd := detect_cycles_eq θ raw t rest hs
    rw [hs] at hsorted
    have hchain : List.Chain (· ≤ ·) t rest := by
      have := List.chain'_iff_pairwise.mpr hsorted
      exact this
    refine ⟨?_, ?_, ?_⟩
    · rw [hd, map_cycle_id_loop]
    · rw [hd]
      exact start_le_end_loop θ rest t t 1 1 le_rfl hchain
    · refine chain'_of_cycleBoundaries (detect_cycles θ raw) ?_
      intro p hp
      rw [boundaries_detect_cycles θ raw, List.mem_filter] at hp
      have : θ < p.2 - p.1 := by simpa using hp.2
      have h0 : (0 : ℚ) < p.2 - p.1 := lt_of_le_of_lt hθ this
      linarith

/-- Witness for C3 on a concrete two-cycle input. -/
theorem claim_C3_witness :
    (detect_cycles 600 [some 1800, some 0, some 2100]).map Cycle.cycle_id =
        [1, 2] ∧
    (∀ c ∈ detect_cycles 600 [some 1800, some 0, some 2100],
      c.start_time ≤ c.end_time) ∧
    List.Chain' (fun a b => a.end_time < b.start_time)
      (detect_cycles 600 [some 1800, some 0, some 2100]) := by
  obtain ⟨h1, h2, h3⟩ :=
    claim_C3 600 [some 1800, some 0, some 2100] (by norm_num) (by decide)
  refine ⟨h1.trans ?_, h2, h3⟩
  norm_num [detect_cycles, sortedValid, List.insertionSort, List.orderedInsert,
    detect_cycles_loop, List.range']

/-! ## Claim C4: cross-table row-by-row comparison -/

theorem mismatch_count_cons (a b : ℚ) (l m : List ℚ) :
    mismatch_count (a :: l) (b :: m) =
      (if a = b then 0 else 1) + mismatch_count l m := by
  unfold mismatch_count
  rw [List.zip_cons_cons, List.filter_cons]
  by_cases h : a = b
  · simp [h]
  · simp [h]
    omega

theorem length_eq_and_mismatch_zero_iff :
    ∀ ref test : List ℚ,
      (ref.length = test.length ∧ mismatch_count ref test = 0) ↔ ref = test
  | [], [] => by simp [mismatch_count]
  | [], _ :: _ => by simp [mismatch_count]
  | _ :: _, [] => by simp [mismatch_count]
  | a :: l, b :: m => by
      rw [mismatch_count_cons]
      constructor
      · rintro ⟨hlen, hmc⟩
        have hab : a = b := by
          by_cases h : a = b
          · exact h
          · simp [h] at hmc
        have hrest := (length_eq_and_mismatch_zero_iff l m).mp
          ⟨by simpa using hlen, by simpa [hab] using hmc⟩
        rw [hab, hrest]
      · intro h
        injection h with h1 h2
        obtain ⟨hl, hm⟩ := (length_eq_and_mismatch_zero_iff l m).mpr h2
        exact ⟨by simp [hl], by simp [h1, hm]⟩

/-- Claim C4 counterexample: the two one-row sequences `10.1 s` and
`10.2 s` agree at whole-second granularity (both truncate to second 10),
yet `_compare_time_series` reports one mismatch and `matches = false`:
the comparison is exact, not truncated to whole seconds. -/
theorem claim_C4_counterexample :
    truncSec (10 + 1/10) = truncSec (10 + 2/10) ∧
    mismatch_count [10 + 1/10] [10 + 2/10] = 1 ∧
    compare_time_series_matches [10 + 1/10] [10 + 2/10] = false := by
  refine ⟨?_, ?_, ?_⟩
  · norm_num [truncSec]
  · norm_num [mismatch_count, List.zip_cons_cons]
  · norm_num [compare_time_series_matches, mismatch_count, List.zip_cons_cons]

/-- Claim C4, amended: `_compare_time_series` compares parsed timestamps
by exact full-precision equality with no truncation: the `matches` flag is
true exactly when the two sequences are identical (same length and equal
at every index); sequences agreeing only to the second may mismatch. -/
theorem claim_C4 (ref_series test_series : List ℚ) :
    compare_time_series_matches ref_series test_series = true ↔
      ref_series = test_series := by
  rw [← length_eq_and_mismatch_zero_iff]
  simp [compare_time_series_matches]

/-- Witness for the amended C4 on a concrete identical pair. -/
theorem claim_C4_witness :
    compare_time_series_matches [1/2, 2] [1/2, 2] = true :=
  (claim_C4 [1/2, 2] [1/2, 2]).mpr rfl

/-! ## Claim C5: automatic strategy selection -/

theorem analyze_ok (col : List (Option ℚ)) (h : col ≠ []) :
    analyze_timestring_quality col =
      .ok ⟨col.length, (col.filterMap id).length,
        col.length - (col.filterMap id).length, data_loss col⟩ := by
  unfold analyze_timestring_quality
  simp [List.length_eq_zero, h]

theorem strategyUsedOf_recover (col : List (Option ℚ)) (strategy : Strategy)
    (θ now : ℚ) (hv : 0 < (col.filterMap id).length) :
    strategyUsedOf (recover_timestrings col strategy θ now) =
      some (if strategy = .auto then chooseAutoStrategy (data_loss col)
        else strategy) := by
  have hne : col ≠ [] := by rintro rfl; simp at hv
  have hv' : ¬ (col.filterMap id).length = 0 := Nat.pos_iff_ne_zero.mp hv
  unfold recover_timestrings
  rw [analyze_ok col hne]
  simp [hv', strategyUsedOf]

/-- Claim C5 counterexample: a five-row column with exactly one
invalid cell has `data_loss_percentage = 20`; with `strategy = auto` the
service selects `pattern` there, not `reconstruct` as the claim's
"from 5% up to 20% selects reconstruct" requires. -/
theorem claim_C5_counterexample :
    data_loss [some 0, some 60, some 120, some 180, none] = 20 ∧
    strategyUsedOf (recover_timestrings
        [some 0, some 60, some 120, some 180, none] .auto (7/10) 0) =
      some Strategy.pattern ∧
    some Strategy.pattern ≠ some Strategy.reconstruct := by
  have hloss : data_loss [some 0, some 60, some 120, some 180, none] = 20 := by
    norm_num [data_loss, List.filterMap_cons]
  refine ⟨hloss, ?_, by decide⟩
  rw [strategyUsedOf_recover _ _ _ _ (by decide), if_pos rfl, hloss]
  norm_num [chooseAutoStrategy]

/-- Claim C5, amended: with `strategy = auto` and at least one valid
timestamp, the strategy actually used is `interpolate` when
`data_loss_percentage < 5`, `reconstruct` when `5 ≤ data_loss_percentage
< 20`, and `pattern` when `data_loss_percentage ≥ 20` (the 20% boundary
selects `pattern`). -/
theorem claim_C5 (col : List (Option ℚ)) (θ now : ℚ)
    (hv : 0 < (col.filterMap id).length) :
    (data_loss col < 5 →
      strategyUsedOf (recover_timestrings col .auto θ now) =
        some .interpolate) ∧
    (5 ≤ data_loss col → data_loss col < 20 →
      strategyUsedOf (recover_timestrings col .auto θ now) =
        some .reconstruct) ∧
    (20 ≤ data_loss col →
      strategyUsedOf (recover_timestrings col .auto θ now) =
        some .pattern) := by
  rw [strategyUsedOf_recover col .auto θ now hv, if_pos rfl]
  unfold chooseAutoStrategy
  refine ⟨fun h1 => by simp [h1], fun h1 h2 => ?_, fun h1 => ?_⟩
  · rw [if_neg (not_lt.mpr h1), if_pos h2]
  · rw [if_neg (by linarith), if_neg (by linarith)]

/-- Witness for the amended C5 at losses 0%, 10% and 25%. -/
theorem claim_C5_witness :
    strategyUsedOf (recover_timestrings [some 0] .auto (7/10) 0) =
      some Strategy.interpolate ∧
    strategyUsedOf (recover_timestrings [some 0, some 60, some 120, some 180,
        some 240, some 300, some 360, some 420, some 480, none]
        .auto (7/10) 0) = some Strategy.reconstruct ∧
    strategyUsedOf (recover_timestrings [some 0, some 60, some 120, none]
        .auto (7/10) 0) = some Strategy.pattern :=
  ⟨(claim_C5 [some 0] (7/10) 0 (by decide)).1 (by norm_num [data_loss, List.filterMap_cons]),
    (claim_C5 _ (7/10) 0 (by decide)).2.1 (by norm_num [data_loss, List.filterMap_cons])
      (by norm_num [data_loss, List.filterMap_cons]),
    (claim_C5 [some 0, some 60, some 120, none] (7/10) 0 (by decide)).2.2
      (by norm_num [data_loss, List.filterMap_cons])⟩

/-! ## Claim C6: confidence gating in the reconstruct/pattern loop -/

theorem truncSec_idem (q : ℚ) : truncSec (truncSec q) = truncSec q := by
  simp [truncSec]

theorem recover_reconstruct_pattern (col : List (Option ℚ)) (strat : Strategy)
    (θ now : ℚ) (hs : strat = .reconstruct ∨ strat = .pattern)
    (hv : 0 < (col.filterMap id).length) :
    recover_timestrings col strat θ now =
      .success (((List.range col.length).map (fun i =>
          match cellAt col i with
          | some t => some t
          | none =>
              let est := estimate_timestamp i (validIndicesOf col) col strat now
              if θ ≤ est.1 then some (truncSec est.2) else none)).map
        (Option.map truncSec)) strat
        (((List.range col.length).filter (fun i =>
          !(cellAt col i).isSome &&
            decide (θ ≤ (estimate_timestamp i (validIndicesOf col) col strat
              now).1))).length) := by
  have hne : col ≠ [] := by rintro rfl; simp at hv
  have hv' : ¬ (col.filterMap id).length = 0 := Nat.pos_iff_ne_zero.mp hv
  unfold recover_timestrings
  rw [analyze_ok col hne]
  rcases hs with rfl | rfl <;> simp [hv']

theorem cellAt_map_map (col : List (Option ℚ)) (f : ℕ → Option ℚ) (i : ℕ)
    (hi : i < col.length) :
    cellAt (((List.range col.length).map f).map (Option.map truncSec)) i =
      Option.map truncSec (f i) := by
  unfold cellAt
  rw [List.get?_map, List.get?_map, List.get?_range hi]
  rfl

/-- Claim C6: in the reconstruct/pattern recovery loop, an estimated value
is written at an invalid position exactly when its confidence reaches
`confidence_threshold`: positions with confidence below the threshold stay
invalid (`none`), positions at or above it receive the second-truncated
estimate, and `total_recovered` counts exactly the positions meeting the
threshold. -/
theorem claim_C6 (col : List (Option ℚ)) (strat : Strategy) (θ now : ℚ)
    (hs : strat = .reconstruct ∨ strat = .pattern)
    (hv : 0 < (col.filterMap id).length) :
    ∃ rec, recover_timestrings col strat θ now = .success rec strat
        (((List.range col.length).filter (fun i =>
          !(cellAt col i).isSome &&
            decide (θ ≤ (estimate_timestamp i (validIndicesOf col) col strat
              now).1))).length) ∧
      ∀ i, i < col.length → cellAt col i = none →
        ((estimate_timestamp i (validIndicesOf col) col strat now).1 < θ →
          cellAt rec i = none) ∧
        (θ ≤ (estimate_timestamp i (validIndicesOf col) col strat now).1 →
          cellAt rec i = some (truncSec
            (estimate_timestamp i (validIndicesOf col) col strat now).2)) := by
  refine ⟨_, recover_reconstruct_pattern col strat θ now hs hv, ?_⟩
  intro i hi hcell
  rw [cellAt_map_map col _ i hi]
  constructor
  · intro hlt
    rw [hcell]
    simp [not_le.mpr hlt]
  · intro hge
    rw [hcell]
    simp [if_pos hge, truncSec_idem]

/-- Witness for C6: a three-row column whose middle cell is invalid, with
`confidence_threshold = 1`: the interpolated estimate has confidence
`5/6 < 1`, so the position stays unrecovered and `total_recovered = 0`. -/
theorem claim_C6_witness :
    ∃ rec, recover_timestrings [some 0, none, some 60]
        Strategy.reconstruct 1 0 = .success rec .reconstruct 0 ∧
      cellAt rec 1 = none := by
  obtain ⟨rec, hrec, hgate⟩ := claim_C6 [some 0, none, some 60] .reconstruct 1 0
    (Or.inl rfl) (by decide)
  have hvi : validIndicesOf [some 0, none, some 60] = [0, 2] := by
    decide
  have hconf : (estimate_timestamp 1 (validIndicesOf [some 0, none, some 60])
      [some 0, none, some 60] .reconstruct 0).1 = 5/6 := by
    rw [hvi]
    norm_num [estimate_timestamp, timeAt, cellAt, List.filter]
  refine ⟨rec, ?_, (hgate 1 (by norm_num) rfl).1 (by rw [hconf]; norm_num)⟩
  rw [hrec]
  congr 1
  rw [List.filter_eq_nil_iff.mpr ?_]
  · rfl
  · intro i hi
    fin_cases hi
    · simp [cellAt]
    · simp [cellAt, hconf]
      norm_num
    · simp [cellAt]

/-! ## Claim C7: failure on a column with zero valid timestamps -/

/-- Claim C7: with zero valid timestamps in a non-empty column, recovery
returns the explicit failure dictionary (`success = False` with the
descriptive message), and the analysis pipeline's recovery phase then
proceeds with the original unrecovered column instead of aborting. -/
theorem claim_C7 (col : List (Option ℚ)) (strategy : Strategy) (θ now : ℚ)
    (hne : col ≠ []) (hv : (col.filterMap id).length = 0) :
    recover_timestrings col strategy θ now =
      .failure "No valid timestamps found for reference" ∧
    recoveryPhase strategy now ⟨true, col⟩ = .ok col := by
  have hrec : recover_timestrings col strategy θ now =
      .failure "No valid timestamps found for reference" := by
    unfold recover_timestrings
    rw [analyze_ok col hne]
    simp [hv]
  refine ⟨hrec, ?_⟩
  have hloss : 0 < data_loss col := by
    unfold data_loss
    rw [hv, Nat.sub_zero]
    have hpos : 0 < col.length := List.length_pos.mpr hne
    have : (0 : ℚ) < (col.length : ℚ) := by exact_mod_cast hpos
    positivity
  have hrec7 : recover_timestrings col strategy (7/10) now =
      .failure "No valid timestamps found for reference" := by
    unfold recover_timestrings
    rw [analyze_ok col hne]
    simp [hv]
  unfold recoveryPhase
  rw [if_pos rfl]
  rw [show (⟨true, col⟩ : InputTable).col = col from rfl, analyze_ok col hne]
  simp only [if_pos hloss, hrec7]

/-- Witness for C7 on a single-row all-invalid column. -/
theorem claim_C7_witness :
    recover_timestrings [none] Strategy.auto (7/10) 0 =
      .failure "No valid timestamps found for reference" ∧
    recoveryPhase Strategy.auto 0 ⟨true, [none]⟩ = .ok [none] :=
  claim_C7 [none] .auto (7/10) 0 (by decide) (by decide)

/-! ## Claim C8: recovery on a column with 0% data loss -/

theorem cellAt_isSome_of_all (col : List (Option ℚ))
    (hall : ∀ c ∈ col, c.isSome) (i : ℕ) (hi : i < col.length) :
    (cellAt col i).isSome := by
  unfold cellAt
  obtain ⟨t, ht⟩ := Option.isSome_iff_exists.mp
    (hall col[i] (List.getElem_mem hi))
  rw [List.get?_eq_getElem?, List.getElem?_eq_getElem hi, ht]
  rfl

theorem range_map_restore (col : List (Option ℚ))
    (hall : ∀ c ∈ col, c.isSome) (g : ℕ → Option ℚ) :
    (List.range col.length).map (fun i =>
      match cellAt col i with
      | some t => some t
      | none => g i) = col := by
  apply List.ext_get?
  intro n
  by_cases hn : n < col.length
  · rw [List.get?_map, List.get?_range hn]
    obtain ⟨t, ht⟩ := Option.isSome_iff_exists.mp
      (cellAt_isSome_of_all col hall n hn)
    have hcol : col.get? n = some (some t) := by
      have := ht
      unfold cellAt at this
      rw [List.get?_eq_get hn] at this ⊢
      simpa using this
    simp [ht, ← List.get?_eq_getElem?, hcol]
  · rw [List.get?_map, List.get?_eq_none.mpr (by simpa using Nat.le_of_not_lt hn),
      List.get?_eq_none.mpr (Nat.le_of_not_lt hn)]
    rfl

theorem map_truncSec_twice (l : List (Option ℚ)) :
    (l.map (Option.map truncSec)).map (Option.map truncSec) =
      l.map (Option.map truncSec) := by
  rw [List.map_map]
  apply List.map_congr_left
  intro o _
  cases o <;> simp [truncSec_idem]

theorem recover_raw_reconstruct_pattern (col : List RawCell) (strat : Strategy)
    (θ now : ℚ) (hs : strat = .reconstruct ∨ strat = .pattern)
    (hv : ¬ (col.filter analyzerValid).length = 0)
    (hne : ¬ col.length = 0) :
    recover_timestrings_raw col strat θ now =
      .success (((List.range (col.map plainParse).length).map (fun i =>
          match cellAt (col.map plainParse) i with
          | some t => some t
          | none =>
              let est := estimate_timestamp i
                (validIndicesOf (col.map plainParse)) (col.map plainParse)
                strat now
              if θ ≤ est.1 then some (truncSec est.2) else none)).map
        (Option.map truncSec)) strat
        (((List.range (col.map plainParse).length).filter (fun i =>
          !(cellAt (col.map plainParse) i).isSome &&
            decide (θ ≤ (estimate_timestamp i
              (validIndicesOf (col.map plainParse)) (col.map plainParse)
              strat now).1))).length) := by
  unfold recover_timestrings_raw
  rcases hs with rfl | rfl <;> simp [hv, hne]

/-- Claim C8 counterexample: the three-row column
`['15/01/2024-style valid, time-overflow value, valid']`, modelled as
`[plain 0, fixable, plain 120]`, has `data_loss_percentage = 0` because
`_parse_timestamp`'s overflow fix classifies the middle cell as valid;
yet under `reconstruct` the recovery loop treats that cell as missing in
its plain-parse `valid_mask`, estimates it with confidence
`0.9 - 0.2/3 = 5/6 ≥ 0.7`, overwrites it and reports
`total_recovered = 1`; and under `auto` (0% loss → `interpolate`, which
never fills on this series) the final plain re-parse nulls the cell.
Either way a 0%-data-loss column does not come back unchanged with
`total_recovered = 0`. -/
theorem claim_C8_counterexample :
    data_loss_raw [RawCell.plain 0, RawCell.fixable, RawCell.plain 120] = 0 ∧
    recover_timestrings_raw [RawCell.plain 0, RawCell.fixable,
        RawCell.plain 120] .reconstruct (7/10) 0 =
      .success [some 0, some 60, some 120] .reconstruct 1 ∧
    recover_timestrings_raw [RawCell.plain 0, RawCell.fixable,
        RawCell.plain 120] .auto (7/10) 0 =
      .success [some 0, none, some 120] .interpolate 0 := by
  have hplain : [RawCell.plain 0, RawCell.fixable, RawCell.plain 120].map
      plainParse = [some (0 : ℚ), none, some 120] := by
    simp [plainParse]
  have hvi : validIndicesOf [some (0 : ℚ), none, some 120] = [0, 2] := by
    decide
  have hest : estimate_timestamp 1 [0, 2] [some (0 : ℚ), none, some 120]
      .reconstruct 0 = (5/6, 60) := by
    norm_num [estimate_timestamp, timeAt, cellAt, List.filter]
  have hloss : data_loss_raw [RawCell.plain 0, RawCell.fixable,
      RawCell.plain 120] = 0 := by
    norm_num [data_loss_raw, analyzerValid, List.filter]
  refine ⟨hloss, ?_, ?_⟩
  · rw [recover_raw_reconstruct_pattern _ _ _ _ (Or.inl rfl) (by decide)
      (by decide), hplain, hvi]
    rw [show List.range ([some (0 : ℚ), none, some 120]).length = [0, 1, 2]
      from by decide]
    have h60 : truncSec (60 : ℚ) = 60 := by
      unfold truncSec
      norm_num
    have h0 : truncSec (0 : ℚ) = 0 := by
      unfold truncSec
      norm_num
    have h120 : truncSec (120 : ℚ) = 120 := by
      unfold truncSec
      norm_num
    norm_num [cellAt, hest, h60, h0, h120]
  · have hchoose : chooseAutoStrategy (data_loss_raw [RawCell.plain 0,
        RawCell.fixable, RawCell.plain 120]) = .interpolate := by
      rw [hloss]
      norm_num [chooseAutoStrategy]
    unfold recover_timestrings_raw
    rw [if_neg (by decide), if_neg (by decide)]
    simp only [if_pos rfl, hchoose, interpolateSeries, hplain]
    have h0 : truncSec (0 : ℚ) = 0 := by
      unfold truncSec
      norm_num
    have h120 : truncSec (120 : ℚ) = 120 := by
      unfold truncSec
      norm_num
    norm_num [cellAt, h0, h120]
    intro a ha hs
    interval_cases a
    · exact ⟨some 0, rfl, by simp⟩
    · simp at hs
    · exact ⟨some 120, rfl, by simp⟩

/-- Claim C8, amended: on a non-empty 0%-data-loss column in which every
cell is moreover parseable by the plain `pd.to_datetime` parser that
recovery's `valid_mask` uses (no cell is valid only via
`_parse_timestamp`'s strptime/overflow fallbacks), recovery succeeds for
every strategy with `total_recovered = 0` and returns the column
unchanged except for the second-precision normalization (each value
floored to a whole second).  On 0%-loss columns containing fallback-only
values the routine instead re-estimates or nulls those cells
(`claim_C8_counterexample`). -/
theorem claim_C8 (col : List RawCell) (strategy : Strategy) (θ now : ℚ)
    (hne : col ≠ []) (hall : ∀ c ∈ col, ∃ t, c = RawCell.plain t) :
    data_loss_raw col = 0 ∧
    ∃ s, recover_timestrings_raw col strategy θ now =
      .success ((col.map plainParse).map (Option.map truncSec)) s 0 := by
  have hfilter : col.filter analyzerValid = col := by
    rw [List.filter_eq_self]
    intro c hc
    obtain ⟨t, rfl⟩ := hall c hc
    rfl
  have hloss : data_loss_raw col = 0 := by
    unfold data_loss_raw
    rw [hfilter, Nat.sub_self]
    norm_num
  refine ⟨hloss, ?_⟩
  have hallsome : ∀ c ∈ col.map plainParse, c.isSome := by
    intro c hc
    obtain ⟨x, hx, rfl⟩ := List.mem_map.mp hc
    obtain ⟨t, rfl⟩ := hall x hx
    rfl
  have hpos : 0 < col.length := List.length_pos.mpr hne
  have hlen0 : ¬ col.length = 0 := by omega
  have hvc : ¬ (col.filter analyzerValid).length = 0 := by
    rw [hfilter]
    omega
  have hcount : ∀ q : ℕ → Bool, (List.range (col.map plainParse).length).filter
      (fun i => !(cellAt (col.map plainParse) i).isSome && q i) = [] := by
    intro q
    rw [List.filter_eq_nil_iff]
    intro i hi
    have := cellAt_isSome_of_all (col.map plainParse) hallsome i
      (List.mem_range.mp hi)
    simp [this]
  have hinterp_count : (List.range (col.map plainParse).length).filter
      (fun i => (cellAt (interpolateSeries (col.map plainParse)) i).isSome &&
        !(cellAt (col.map plainParse) i).isSome) = [] := by
    rw [List.filter_eq_nil_iff]
    intro i hi
    have := cellAt_isSome_of_all (col.map plainParse) hallsome i
      (List.mem_range.mp hi)
    simp [this]
  cases strategy with
  | auto =>
      refine ⟨.interpolate, ?_⟩
      unfold recover_timestrings_raw
      rw [if_neg hlen0, if_neg hvc]
      have hchoose : chooseAutoStrategy (data_loss_raw col) = .interpolate := by
        rw [hloss]
        norm_num [chooseAutoStrategy]
      simp only [if_pos rfl, hchoose]
      simp [interpolateSeries, hinterp_count, map_truncSec_twice,
        truncSec_idem, Function.comp, Option.isSome_iff_ne_none]
      intro a ha
      obtain ⟨t, rfl⟩ := hall a ha
      simp [plainParse, truncSec_idem]
  | interpolate =>
      refine ⟨.interpolate, ?_⟩
      unfold recover_timestrings_raw
      rw [if_neg hlen0, if_neg hvc]
      simp [interpolateSeries, hinterp_count, map_truncSec_twice,
        truncSec_idem, Function.comp, Option.isSome_iff_ne_none]
      intro a ha
      obtain ⟨t, rfl⟩ := hall a ha
      simp [plainParse, truncSec_idem]
  | reconstruct =>
      refine ⟨.reconstruct, ?_⟩
      rw [recover_raw_reconstruct_pattern col .reconstruct θ now (Or.inl rfl)
        hvc hlen0]
      rw [hcount (fun i => decide (θ ≤ (estimate_timestamp i
        (validIndicesOf (col.map plainParse)) (col.map plainParse)
        Strategy.reconstruct now).1))]
      have hrestore := range_map_restore (col.map plainParse) hallsome
        (fun i =>
          let est := estimate_timestamp i (validIndicesOf (col.map plainParse))
            (col.map plainParse) Strategy.reconstruct now
          if θ ≤ est.1 then some (truncSec est.2) else none)
      rw [hrestore]
      rfl
  | pattern =>
      refine ⟨.pattern, ?_⟩
      rw [recover_raw_reconstruct_pattern col .pattern θ now (Or.inr rfl)
        hvc hlen0]
      rw [hcount (fun i => decide (θ ≤ (estimate_timestamp i
        (validIndicesOf (col.map plainParse)) (col.map plainParse)
        Strategy.pattern now).1))]
      have hrestore := range_map_restore (col.map plainParse) hallsome
        (fun i =>
          let est := estimate_timestamp i (validIndicesOf (col.map plainParse))
            (col.map plainParse) Strategy.pattern now
          if θ ≤ est.1 then some (truncSec est.2) else none)
      rw [hrestore]
      rfl

/-- Witness for the amended C8: a two-row column of plainly-parseable
cells with a sub-second first value `0.5 s` comes back as `0 s` (second
truncation), `total_recovered = 0`. -/
theorem claim_C8_witness :
    data_loss_raw [RawCell.plain (1/2), RawCell.plain 60] = 0 ∧
    ∃ s, recover_timestrings_raw [RawCell.plain (1/2), RawCell.plain 60]
        Strategy.auto (7/10) 0 = .success [some 0, some 60] s 0 := by
  obtain ⟨hloss, s, hs⟩ := claim_C8 [RawCell.plain (1/2), RawCell.plain 60]
    .auto (7/10) 0 (by decide) (by
      intro c hc
      simp at hc
      rcases hc with rfl | rfl
      · exact ⟨2⁻¹, rfl⟩
      · exact ⟨60, rfl⟩)
  refine ⟨hloss, s, hs.trans ?_⟩
  have h1 : truncSec (2⁻¹ : ℚ) = 0 := by
    unfold truncSec
    norm_num
  have h2 : truncSec (60 : ℚ) = 60 := by
    unfold truncSec
    norm_num
  simp [plainParse, h1, h2]

/-! ## Claim C9: per-table error conversion vs. batch behaviour -/

/-- Claim C9 exhibit: `CycleAnalyzer.analyze_table` itself converts a
zero-row table into a `TableResult` with error message "Table is empty"
and empty cycles, but `AnalysisService.analyze_tables` never reaches it:
its recovery phase calls `analyze_timestring_quality` on the same table
first, whose `data_loss_percentage` computation divides by
`total_rows = 0`, so the whole batch aborts with a `ZeroDivisionError`
instead of returning one result per table. -/
theorem claim_C9 :
    analyze_table 600 ⟨true, []⟩ = ⟨[], 0, "Table is empty"⟩ ∧
    analyze_tables 600 .auto 0 [⟨true, []⟩] = .error "ZeroDivisionError" := by
  constructor
  · rfl
  · rfl

/-! ## Claim C10: confidence bounds of the estimation routine -/

/-- Claim C10: the confidence returned by `_estimate_timestamp` always
lies in the closed interval [0.3, 0.9]; in the two-valid-neighbors case
the formula `0.9 - 0.2 * (next_idx - prev_idx - 1) / total_rows` is
strictly greater than 0.7, because the gap between the neighbors is less
than the number of rows.  In particular the unclamped confidence never
leaves [0, 1]. -/
theorem claim_C10 (index : ℕ) (valid_indices : List ℕ)
    (col : List (Option ℚ)) (strategy : Strategy) (now : ℚ)
    (hb : ∀ j ∈ valid_indices, j < col.length) :
    (3/10 ≤ (estimate_timestamp index valid_indices col strategy now).1 ∧
      (estimate_timestamp index valid_indices col strategy now).1 ≤ 9/10) ∧
    (valid_indices.filter (fun j => decide (j < index)) ≠ [] →
      valid_indices.filter (fun j => decide (index < j)) ≠ [] →
      7/10 < (estimate_timestamp index valid_indices col strategy now).1) := by
  unfold estimate_timestamp
  rcases hp : (valid_indices.filter (fun j => decide (j < index))).getLast?
    with _ | p
  · rcases hn : (valid_indices.filter (fun j => decide (index < j))).head?
      with _ | n
    · simp only [hp, hn]
      exact ⟨by norm_num, fun hpne _ =>
        absurd (List.getLast?_eq_none_iff.mp hp) hpne⟩
    · simp only [hp, hn]
      exact ⟨by norm_num, fun hpne _ =>
        absurd (List.getLast?_eq_none_iff.mp hp) hpne⟩
  · rcases hn : (valid_indices.filter (fun j => decide (index < j))).head?
      with _ | n
    · simp only [hp, hn]
      refine ⟨?_, fun _ hnne =>
        absurd (List.head?_eq_none_iff.mp hn) hnne⟩
      split_ifs with h1 h2
      · constructor <;> norm_num
      · constructor <;> norm_num
      · constructor <;> norm_num
    · have hpmem := List.mem_filter.mp (List.mem_of_getLast?_eq_some hp)
      have hnmem := List.mem_filter.mp (List.mem_of_mem_head? hn)
      have hpi : p < index := by simpa using hpmem.2
      have hin : index < n := by simpa using hnmem.2
      have hnlen : n < col.length := hb n hnmem.1
      have hlen0 : 0 < col.length := Nat.lt_of_le_of_lt (Nat.zero_le n) hnlen
      have hL : (0 : ℚ) < (col.length : ℚ) := by exact_mod_cast hlen0
      have hpn : p + 2 ≤ n := by omega
      have hgap0 : (0 : ℚ) ≤ (n : ℚ) - (p : ℚ) - 1 := by
        have : ((p : ℚ) + 2) ≤ (n : ℚ) := by exact_mod_cast hpn
        linarith
      have hgapL : (n : ℚ) - (p : ℚ) - 1 < (col.length : ℚ) := by
        have h1 : (n : ℚ) < (col.length : ℚ) := by exact_mod_cast hnlen
        have h2 : (0 : ℚ) ≤ (p : ℚ) := by positivity
        linarith
      have hq0 : (0 : ℚ) ≤ ((n : ℚ) - (p : ℚ) - 1) / (col.length : ℚ) :=
        div_nonneg hgap0 hL.le
      have hq1 : ((n : ℚ) - (p : ℚ) - 1) / (col.length : ℚ) < 1 :=
        (div_lt_one hL).mpr hgapL
      simp only [hp, hn]
      refine ⟨⟨by linarith, by linarith⟩, fun _ _ => by linarith⟩

/-- Witness for C10 at the middle invalid position of a three-row column
with valid neighbors on both sides. -/
theorem claim_C10_witness :
    (3/10 ≤ (estimate_timestamp 1 [0, 2] [some 0, none, some 60]
        Strategy.reconstruct 0).1 ∧
      (estimate_timestamp 1 [0, 2] [some 0, none, some 60]
        Strategy.reconstruct 0).1 ≤ 9/10) ∧
    7/10 < (estimate_timestamp 1 [0, 2] [some 0, none, some 60]
        Strategy.reconstruct 0).1 := by
  obtain ⟨hrange, htwo⟩ := claim_C10 1 [0, 2] [some 0, none, some 60]
    .reconstruct 0 (by decide)
  exact ⟨hrange, htwo (by decide) (by decide)⟩

end LotesTable
